import Mathlib

/-!
Shallow embedding of `src/utils/tx_tools.py` (eopsin-pioneer-program):
conversion of pycardano ledger transactions into the opshin/Plutus script
context data model, and resolution of script invocations
(`generate_script_contexts_resolved`).

Python dicts are modelled as insertion-ordered association lists
(`dictInsert` replaces in place, else appends), opaque blobs (script bytes,
plutus datums) as natural-number identifiers, and the external pycardano
hash functions (`plutus_script_hash`, `script_hash`, `datum_hash`) as an
explicit environment of hash functions.  Fallible Python code (raised
exceptions) is embedded with `Except Err`.  The in-place mutation of
`tx.transaction_witness_set.plutus_v2_script` that the Python code can
perform through the `potential_scripts` aliasing is modelled by threading
the current value of that field as explicit state.
-/

namespace TxTools

/-- Byte strings (`bytes` in Python); `[]` is the empty byte string `b""`. -/
abbrev Bytes := List Nat

/-- Opaque compiled script bytes (a `PlutusV2Script` blob). -/
abbrev Script := Nat

/-- Opaque plutus datum value. -/
abbrev Datum := Nat

/-- `pycardano.RedeemerTag`. -/
inductive RedeemerTag where
  | spend
  | mint
  | cert
  | reward
  deriving DecidableEq

/-- `pycardano.Redeemer`: tag, declared index, data and an execution budget. -/
structure PRedeemer where
  tag : RedeemerTag
  index : Nat
  data : Datum
  ex_units : Nat × Nat
  deriving DecidableEq

/-- The external content-hash functions of pycardano
(`plutus_script_hash`/`script_hash` and `datum_hash`), which the core treats
as black boxes. -/
structure HashEnv where
  scriptHash : Script → Bytes
  datumHash : Datum → Bytes
  redeemerHash : PRedeemer → Bytes

/-- Python dict assignment `d[k] = v`: replace the value at `k` in place if
the key is present, otherwise append the new binding at the end. -/
def dictInsert {κ ν : Type} [BEq κ] : List (κ × ν) → κ → ν → List (κ × ν)
  | [], k, v => [(k, v)]
  | (k', v') :: rest, k, v =>
      if k' == k then (k, v) :: rest else (k', v') :: dictInsert rest k v

/-- Python dict built from a sequence of key/value pairs (later duplicates
overwrite earlier values, keeping the first position). -/
def dictFromList {κ ν : Type} [BEq κ] (l : List (κ × ν)) : List (κ × ν) :=
  l.foldl (fun acc kv => dictInsert acc kv.1 kv.2) []

/-- Python dict lookup `d.get(k)`. -/
def dictGet? {κ ν : Type} [BEq κ] : List (κ × ν) → κ → Option ν
  | [], _ => none
  | (k', v) :: rest, k => if k' == k then some v else dictGet? rest k

/-- `pycardano.MultiAsset`: policy id ↦ (asset name ↦ quantity). -/
abbrev MultiAsset := List (Bytes × List (Bytes × Int))

/-- The opshin `Value`: policy id ↦ (token name ↦ quantity), policy `b""`
with token `b""` being the native currency. -/
abbrev Value := List (Bytes × List (Bytes × Int))

/-- `pycardano.Value`: a coin amount plus a multi-asset map. -/
structure PValue where
  coin : Int
  multi_asset : Option MultiAsset
  deriving DecidableEq

/-- `multiasset_to_value` (tx_tools.py lines 82–90). -/
def multiasset_to_value (ma : Option MultiAsset) : Value :=
  match ma with
  | none => [([], [([], 0)])]
  | some m => m.map fun pa => (pa.1, pa.2.map fun aq => (aq.1, aq.2))

/-- `value_to_value` (tx_tools.py lines 93–96): convert the multi-asset part
and then assign `ma[b""] = {b"": v.coin}`. -/
def value_to_value (v : PValue) : Value :=
  dictInsert (multiasset_to_value v.multi_asset) [] [([], v.coin)]

/-- opshin `ExtendedPOSIXTime`. -/
inductive ExtendedPOSIXTime where
  | NegInfPOSIXTime
  | FinitePOSIXTime (t : Int)
  | PosInfPOSIXTime
  deriving DecidableEq

/-- opshin `BoolData` (`TrueData` marks an inclusive interval bound). -/
inductive BoolData where
  | TrueData
  | FalseData
  deriving DecidableEq

/-- opshin `LowerBoundPOSIXTime`. -/
structure LowerBoundPOSIXTime where
  limit : ExtendedPOSIXTime
  closed : BoolData
  deriving DecidableEq

/-- opshin `UpperBoundPOSIXTime`. -/
structure UpperBoundPOSIXTime where
  limit : ExtendedPOSIXTime
  closed : BoolData
  deriving DecidableEq

/-- opshin `POSIXTimeRange`. -/
structure POSIXTimeRange where
  lower_bound : LowerBoundPOSIXTime
  upper_bound : UpperBoundPOSIXTime
  deriving DecidableEq

/-- `to_valid_range` (tx_tools.py lines 56–67). -/
def to_valid_range (validity_start : Option Int) (ttl : Option Int) :
    POSIXTimeRange :=
  let lower_bound :=
    match validity_start with
    | none => LowerBoundPOSIXTime.mk .NegInfPOSIXTime .FalseData
    | some s => LowerBoundPOSIXTime.mk (.FinitePOSIXTime s) .TrueData
  let upper_bound :=
    match ttl with
    | none => UpperBoundPOSIXTime.mk .PosInfPOSIXTime .FalseData
    | some t => UpperBoundPOSIXTime.mk (.FinitePOSIXTime t) .TrueData
  POSIXTimeRange.mk lower_bound upper_bound

/-- opshin `Credential` (payment credentials). -/
inductive Credential where
  | PubKeyCredential (h : Bytes)
  | ScriptCredential (h : Bytes)
  deriving DecidableEq

/-- opshin `StakingCredential`. -/
inductive StakingCredential where
  | StakingHash (c : Credential)
  | StakingPtr (slot tx_index cert_index : Nat)
  deriving DecidableEq

/-- opshin `Union[SomeStakingCredential, NoStakingCredential]`. -/
inductive OptStakingCredential where
  | NoStakingCredential
  | SomeStakingCredential (c : StakingCredential)
  deriving DecidableEq

/-- opshin `Address`. -/
structure Address where
  payment_credential : Credential
  staking_credential : OptStakingCredential
  deriving DecidableEq

/-- opshin `Union[NoOutputDatum, SomeOutputDatumHash, SomeOutputDatum]`. -/
inductive OutputDatum where
  | NoOutputDatum
  | SomeOutputDatumHash (h : Bytes)
  | SomeOutputDatum (d : Datum)
  deriving DecidableEq

/-- opshin `Union[NoScriptHash, SomeScriptHash]` (reference script of a TxOut). -/
inductive OptScriptHash where
  | NoScriptHash
  | SomeScriptHash (h : Bytes)
  deriving DecidableEq

/-- opshin `TxOut`. -/
structure TxOut where
  address : Address
  value : Value
  datum : OutputDatum
  reference_script : OptScriptHash
  deriving DecidableEq

/-- opshin `TxId`. -/
structure TxId where
  tx_id : Bytes
  deriving DecidableEq

/-- opshin `TxOutRef`. -/
structure TxOutRef where
  id : TxId
  idx : Nat
  deriving DecidableEq

/-- opshin `TxInInfo`. -/
structure TxInInfo where
  out_ref : TxOutRef
  resolved : TxOut
  deriving DecidableEq

/-- opshin `DCert`: no value of this type is ever built, because `to_dcert`
raises on every certificate. -/
inductive DCert where

instance : DecidableEq DCert := fun a _ => nomatch a

/-- The errors (raised Python exceptions) of the conversion and resolution
code.  `typeError` and `attributeError` stand for uncaught `TypeError` /
`AttributeError` exceptions; the named constructors carry the source's
deliberate `ValueError` / `NotImplementedError` raises. -/
inductive Err where
  | missingRedeemer (i : Nat)
  | missingMintRedeemer (i : Nat)
  | unsupportedScript
  | missingDatum
  | certificatesUnsupported
  | unsupportedKeyType
  | typeError
  | attributeError
  deriving DecidableEq

/-! ### The pycardano transaction model (the fields tx_tools.py reads) -/

/-- `pycardano.Address.payment_part`:
a `VerificationKeyHash` or a `ScriptHash`. -/
inductive PaymentPart where
  | vkey (h : Bytes)
  | script (h : Bytes)
  deriving DecidableEq

/-- `pycardano.Address.staking_part`: a `VerificationKeyHash`, `ScriptHash`,
`PointerAddress`, or `None`. -/
inductive StakingPart where
  | none
  | vkey (h : Bytes)
  | script (h : Bytes)
  | pointer (slot tx_index cert_index : Nat)
  deriving DecidableEq

/-- `pycardano.Address` (the parts read by `to_address`). -/
structure PAddress where
  payment_part : PaymentPart
  staking_part : StakingPart
  deriving DecidableEq

/-- `pycardano.TransactionOutput` (the fields read by tx_tools.py). -/
structure PTransactionOutput where
  address : PAddress
  amount : PValue
  datum : Option Datum
  datum_hash : Option Bytes
  script : Option Script
  deriving DecidableEq

/-- `pycardano.TransactionInput`. -/
structure PTransactionInput where
  transaction_id : Bytes
  index : Nat
  deriving DecidableEq

/-- `pycardano.UTxO`. -/
structure PUTxO where
  input : PTransactionInput
  output : PTransactionOutput
  deriving DecidableEq

/-- An opaque `pycardano.Certificate`. -/
inductive Cert where
  | cert (n : Nat)
  deriving DecidableEq

/-- `pycardano.TransactionBody` (the fields read by tx_tools.py).
Withdrawal keys are modelled by the staking part the reward address decodes
to. -/
structure PTransactionBody where
  inputs : List PTransactionInput
  reference_inputs : Option (List PTransactionInput)
  outputs : List PTransactionOutput
  fee : Int
  mint : Option MultiAsset
  certificates : Option (List Cert)
  withdraws : Option (List (StakingPart × Int))
  validity_start : Option Int
  ttl : Option Int
  required_signers : Option (List Bytes)
  id : Bytes
  deriving DecidableEq

/-- `pycardano.TransactionWitnessSet` (the fields read by tx_tools.py). -/
structure PWitnessSet where
  plutus_v2_script : Option (List Script)
  plutus_data : Option (List Datum)
  redeemer : Option (List PRedeemer)
  deriving DecidableEq

/-- `pycardano.Transaction` (the fields read by tx_tools.py). -/
structure PTransaction where
  transaction_body : PTransactionBody
  transaction_witness_set : PWitnessSet
  deriving DecidableEq

/-! ### The converters of tx_tools.py -/

/-- `to_staking_hash` (lines 31–42); `none` models the `NotImplementedError`
raised on a `None` (or unknown) staking part. -/
def to_staking_hash : StakingPart → Option StakingCredential
  | .pointer slot tx_index cert_index =>
      some (.StakingPtr slot tx_index cert_index)
  | .vkey h => some (.StakingHash (.PubKeyCredential h))
  | .script h => some (.StakingHash (.ScriptCredential h))
  | .none => none

/-- `to_staking_credential` (lines 17–28): the `NotImplementedError` of
`to_staking_hash` is caught and turned into `NoStakingCredential`. -/
def to_staking_credential (sk : StakingPart) : OptStakingCredential :=
  match to_staking_hash sk with
  | some h => .SomeStakingCredential h
  | none => .NoStakingCredential

/-- The key/value conversions of `to_wdrl`'s dict comprehension, in order;
a staking part that `to_staking_hash` rejects propagates as an uncaught
`NotImplementedError` (`unsupportedKeyType`). -/
def wdrlEntries :
    List (StakingPart × Int) → Except Err (List (StakingCredential × Int))
  | [] => .ok []
  | kv :: rest =>
    match to_staking_hash kv.1 with
    | none => .error .unsupportedKeyType
    | some sc =>
      match wdrlEntries rest with
      | .error e => .error e
      | .ok tl => .ok ((sc, kv.2) :: tl)

/-- `to_wdrl` (lines 45–53): a dict comprehension over the withdrawal map. -/
def to_wdrl (wdrl : Option (List (StakingPart × Int))) :
    Except Err (List (StakingCredential × Int)) :=
  match wdrl with
  | none => .ok []
  | some l =>
    match wdrlEntries l with
    | .error e => .error e
    | .ok entries => .ok (dictFromList entries)

/-- `to_pubkeyhash` (lines 70–71): unwraps the hash bytes. -/
def to_pubkeyhash (vkh : Bytes) : Bytes := vkh

/-- `to_tx_id` (lines 74–75). -/
def to_tx_id (tx_id : Bytes) : TxId := TxId.mk tx_id

/-- `to_dcert` (lines 78–79): always raises `NotImplementedError`. -/
def to_dcert (_c : Cert) : Except Err DCert :=
  .error .certificatesUnsupported

/-- The list comprehension `[to_dcert(c) for c in tx_body.certificates]`:
the first element already raises. -/
def to_dcerts : List Cert → Except Err (List DCert)
  | [] => .ok []
  | c :: rest =>
    match to_dcert c with
    | .error e => .error e
    | .ok d =>
      match to_dcerts rest with
      | .error e => .error e
      | .ok ds => .ok (d :: ds)

/-- `to_payment_credential` (lines 99–106). -/
def to_payment_credential : PaymentPart → Credential
  | .vkey h => .PubKeyCredential h
  | .script h => .ScriptCredential h

/-- `to_address` (lines 109–113). -/
def to_address (a : PAddress) : Address :=
  Address.mk (to_payment_credential a.payment_part)
    (to_staking_credential a.staking_part)

/-- `to_tx_out` (lines 116–132). -/
def to_tx_out (env : HashEnv) (o : PTransactionOutput) : TxOut :=
  let output_datum :=
    match o.datum with
    | some d => OutputDatum.SomeOutputDatum d
    | none =>
      match o.datum_hash with
      | some h => OutputDatum.SomeOutputDatumHash h
      | none => OutputDatum.NoOutputDatum
  let script :=
    match o.script with
    | none => OptScriptHash.NoScriptHash
    | some s => OptScriptHash.SomeScriptHash (env.scriptHash s)
  TxOut.mk (to_address o.address) (value_to_value o.amount) output_datum script

/-- `to_tx_out_ref` (lines 135–139). -/
def to_tx_out_ref (i : PTransactionInput) : TxOutRef :=
  TxOutRef.mk (TxId.mk i.transaction_id) i.index

/-- `to_tx_in_info` (lines 142–146). -/
def to_tx_in_info (env : HashEnv) (i : PTransactionInput)
    (o : PTransactionOutput) : TxInInfo :=
  TxInInfo.mk (to_tx_out_ref i) (to_tx_out env o)

/-- opshin `TxInfo` (the aggregate built by `to_tx_info`). -/
structure TxInfo where
  inputs : List TxInInfo
  reference_inputs : List TxInInfo
  outputs : List TxOut
  fee : Value
  mint : Value
  dcert : List DCert
  wdrl : List (StakingCredential × Int)
  valid_range : POSIXTimeRange
  signatories : List Bytes
  data : List (Bytes × Datum)
  redeemers : List (Bytes × PRedeemer)
  id : TxId
  deriving DecidableEq

/-- `to_tx_info` (lines 149–182).  The `TxInfo(...)` call evaluates its
arguments left to right, so a present certificate fails
(`certificatesUnsupported`, argument 6) before a withdrawal with an invalid
key (argument 7) and before the redeemer table crashes on a `None` redeemer
list (iterating `None`, argument 11). -/
def to_tx_info (env : HashEnv) (tx : PTransaction)
    (resolved_inputs resolved_reference_inputs : List PTransactionOutput) :
    Except Err TxInfo :=
  let tb := tx.transaction_body
  let ws := tx.transaction_witness_set
  let datums0 :=
    (tb.outputs ++ resolved_inputs ++ resolved_reference_inputs).filterMap
      (·.datum)
  let datums := datums0 ++ (match ws.plutus_data with
    | none => []
    | some pd => pd)
  match (match tb.certificates with
    | none => Except.ok []
    | some cs => if cs.isEmpty then Except.ok [] else to_dcerts cs) with
  | .error e => .error e
  | .ok dcerts =>
    match to_wdrl tb.withdraws with
    | .error e => .error e
    | .ok wdrl =>
      match ws.redeemer with
      | none => .error .typeError
      | some rs =>
        .ok
          { inputs :=
              (tb.inputs.zip resolved_inputs).map fun io =>
                to_tx_in_info env io.1 io.2
            reference_inputs :=
              match tb.reference_inputs with
              | none => []
              | some refs =>
                  (refs.zip resolved_reference_inputs).map fun io =>
                    to_tx_in_info env io.1 io.2
            outputs := tb.outputs.map (to_tx_out env)
            fee := value_to_value (PValue.mk tb.fee (some []))
            mint := multiasset_to_value tb.mint
            dcert := dcerts
            wdrl := wdrl
            valid_range := to_valid_range tb.validity_start tb.ttl
            signatories :=
              match tb.required_signers with
              | none => []
              | some l => l.map to_pubkeyhash
            data := dictFromList (datums.map fun d => (env.datumHash d, d))
            redeemers := dictFromList (rs.map fun r => (env.redeemerHash r, r))
            id := to_tx_id tb.id }

/-! ### The witness resolver (`generate_script_contexts_resolved`) -/

/-- opshin `ScriptPurpose` (the purposes tx_tools.py builds). -/
inductive ScriptPurpose where
  | Minting (policy_id : Bytes)
  | Spending (ref : TxOutRef)
  deriving DecidableEq

/-- opshin `ScriptContext`. -/
structure ScriptContext where
  tx_info : TxInfo
  purpose : ScriptPurpose
  deriving DecidableEq

/-- `ScriptInvocation` (tx_tools.py lines 185–190): a dataclass of four
fields, all required (none has a default value). -/
structure ScriptInvocation where
  script_type : Script
  datum : Option Datum
  redeemer : PRedeemer
  script_context : ScriptContext
  deriving DecidableEq

/-- The spending-redeemer search (lines 233–242):
`next(r for r in ws.redeemer if r.index == i and r.tag == SPEND)`, with both
`StopIteration` (no match) and `TypeError` (`ws.redeemer is None`) caught
and re-raised as the `ValueError` "Missing redeemer for script input i". -/
def findSpendRedeemer (rds : Option (List PRedeemer)) (i : Nat) :
    Except Err PRedeemer :=
  match rds with
  | none => .error (.missingRedeemer i)
  | some rs =>
    match rs.find? (fun r => r.index == i && r.tag == RedeemerTag.spend) with
    | none => .error (.missingRedeemer i)
    | some r => .ok r

/-- The effect on `tx.transaction_witness_set.plutus_v2_script` of building
`potential_scripts` (lines 243–246): `ws.plutus_v2_script or []` aliases the
witness list when it is non-empty, so the loop appending every reference
script of the resolved and reference inputs mutates the witness set in
place; when the witness list is empty or `None`, the appends go to a fresh
list and the witness set is untouched (and the fresh pool is never read
again). -/
def mutateWitnessScripts (w : Option (List Script))
    (refScripts : List Script) : Option (List Script) :=
  match w with
  | none => none
  | some l => if l.isEmpty then some [] else some (l ++ refScripts)

/-- The spending-script search (lines 247–257): iterates
`tx.transaction_witness_set.plutus_v2_script` (not `potential_scripts`!)
for a script whose `plutus_script_hash` equals the spending credential;
`StopIteration` and `TypeError` (`None` list) are caught and re-raised as
`NotImplementedError` (`unsupportedScript`). -/
def findSpendingScript (env : HashEnv) (w : Option (List Script))
    (h : Bytes) : Except Err Script :=
  match w with
  | none => .error .unsupportedScript
  | some l =>
    match l.find? (fun s => env.scriptHash s == h) with
    | none => .error .unsupportedScript
    | some s => .ok s

/-- The datum resolution of a spending input (lines 258–275): an inline
datum wins; else a present datum hash is looked up among the witness set's
attached datums (`plutus_data or []`); else (or when the lookup finds
nothing) a `ValueError` is raised (`missingDatum`). -/
def resolveDatum (env : HashEnv) (pdata : Option (List Datum))
    (o : PTransactionOutput) : Except Err Datum :=
  match o.datum with
  | some d => .ok d
  | none =>
    match o.datum_hash with
    | some h =>
      match (pdata.getD []).find? (fun d => env.datumHash d == h) with
      | none => .error .missingDatum
      | some d => .ok d
    | none => .error .missingDatum

/-- The spending loop (lines 230–283), one step per resolved input,
threading the current value of `tx.transaction_witness_set.plutus_v2_script`
(which `mutateWitnessScripts` may grow at every script-controlled input).
Inputs whose payment part is not a `ScriptHash` are skipped.  The pair
returned carries the loop's result and the final witness-script list. -/
def runSpendInputs (env : HashEnv) (tx_info : TxInfo)
    (rds : Option (List PRedeemer)) (pdata : Option (List Datum))
    (refScripts : List Script) :
    Nat → List PUTxO → Option (List Script) →
      Except Err (List ScriptInvocation) × Option (List Script)
  | _, [], w => (.ok [], w)
  | i, u :: rest, w =>
    match u.output.address.payment_part with
    | .vkey _ => runSpendInputs env tx_info rds pdata refScripts (i + 1) rest w
    | .script h =>
      match findSpendRedeemer rds i with
      | .error e => (.error e, w)
      | .ok r =>
        let w' := mutateWitnessScripts w refScripts
        match findSpendingScript env w' h with
        | .error e => (.error e, w')
        | .ok s =>
          match resolveDatum env pdata u.output with
          | .error e => (.error e, w')
          | .ok d =>
            let inv : ScriptInvocation :=
              { script_type := s
                datum := some d
                redeemer := r
                script_context :=
                  ScriptContext.mk tx_info
                    (.Spending (to_tx_out_ref u.input)) }
            let step := runSpendInputs env tx_info rds pdata refScripts
              (i + 1) rest w'
            (step.1.map (fun invs => inv :: invs), step.2)

/-- The minting-redeemer search (lines 285–294):
`next(r for r in ws.redeemer if r.index == i and r.tag == MINT)`, with only
`StopIteration` caught (re-raised as "Missing redeemer for mint i"); a
`None` redeemer list raises an uncaught `TypeError`. -/
def findMintRedeemer (rds : Option (List PRedeemer)) (i : Nat) :
    Except Err PRedeemer :=
  match rds with
  | none => .error .typeError
  | some rs =>
    match rs.find? (fun r => r.index == i && r.tag == RedeemerTag.mint) with
    | none => .error (.missingMintRedeemer i)
    | some r => .ok r

/-- The minting-script search (lines 295–304): iterates the witness set's
`plutus_v2_script` for a script hashing to the policy id; only
`StopIteration` is caught (`unsupportedScript`); a `None` list raises an
uncaught `TypeError`. -/
def findMintingScript (env : HashEnv) (w : Option (List Script))
    (p : Bytes) : Except Err Script :=
  match w with
  | none => .error .typeError
  | some l =>
    match l.find? (fun s => env.scriptHash s == p) with
    | none => .error .unsupportedScript
    | some s => .ok s

/-- The policy ids iterated by the mint loop:
`enumerate(tx.transaction_body.mint or [])` yields the mint map's keys in
encountered order. -/
def mintPolicies (tb : PTransactionBody) : List Bytes :=
  match tb.mint with
  | none => []
  | some m => m.map (·.1)

/-- The mint loop (lines 284–312), one step per mint policy.  After a
redeemer and a script are both found, the source appends
`ScriptInvocation(minting_script, minting_redeemer, ScriptContext(tx_info,
Minting(minting_script.hash())))`: evaluating `minting_script.hash()`
raises an uncaught `AttributeError` (`PlutusV2Script` is a plain `bytes`
subclass with no `hash` method) — and even apart from that, the call passes
three arguments to the four-field `ScriptInvocation` dataclass, a
`TypeError`.  The loop therefore never completes a minting invocation; it
is modelled by the unconditional `attributeError` crash, so the loop never
reaches a second policy after resolving the first. -/
def runMint (env : HashEnv) (rds : Option (List PRedeemer)) :
    Nat → List Bytes → Option (List Script) →
      Except Err (List ScriptInvocation)
  | _, [], _ => .ok []
  | i, p :: _, w =>
    match findMintRedeemer rds i with
    | .error e => .error e
    | .ok _ =>
      match findMintingScript env w p with
      | .error e => .error e
      | .ok _ => .error .attributeError

/-- `generate_script_contexts_resolved` (lines 219–313), with the value of
`tx.transaction_witness_set.plutus_v2_script` after the call returned as the
second component (the Python function mutates it in place through the
`potential_scripts` aliasing). -/
def generate_script_contexts_resolvedSt (env : HashEnv) (tx : PTransaction)
    (resolved_inputs resolved_reference_inputs : List PUTxO) :
    Except Err (List ScriptInvocation) × Option (List Script) :=
  let w0 := tx.transaction_witness_set.plutus_v2_script
  match to_tx_info env tx (resolved_inputs.map (·.output))
      (resolved_reference_inputs.map (·.output)) with
  | .error e => (.error e, w0)
  | .ok tx_info =>
    let refScripts :=
      (resolved_reference_inputs ++ resolved_inputs).filterMap
        (·.output.script)
    let spendStep := runSpendInputs env tx_info
      tx.transaction_witness_set.redeemer
      tx.transaction_witness_set.plutus_data refScripts 0 resolved_inputs w0
    match spendStep.1 with
    | .error e => (.error e, spendStep.2)
    | .ok spendInvs =>
      match runMint env tx.transaction_witness_set.redeemer 0
          (mintPolicies tx.transaction_body) spendStep.2 with
      | .error e => (.error e, spendStep.2)
      | .ok mintInvs => (.ok (spendInvs ++ mintInvs), spendStep.2)

/-- `generate_script_contexts_resolved`'s return value (the list of script
invocations, or the exception that aborted the resolution). -/
def generate_script_contexts_resolved (env : HashEnv) (tx : PTransaction)
    (resolved_inputs resolved_reference_inputs : List PUTxO) :
    Except Err (List ScriptInvocation) :=
  (generate_script_contexts_resolvedSt env tx resolved_inputs
    resolved_reference_inputs).1

/-! ### Observers and concrete fixtures -/

/-- The purposes the spending loop assigns, read off the resolved input
list: one `Spending` purpose per input whose payment part is a script hash,
in list order. -/
def spendPurposes (resolved_inputs : List PUTxO) : List ScriptPurpose :=
  (resolved_inputs.filter fun u =>
      match u.output.address.payment_part with
      | .script _ => true
      | .vkey _ => false).map
    fun u => .Spending (to_tx_out_ref u.input)

/-- The purposes of the mint loop: one `Minting` purpose per policy of the
mint map, in encountered order. -/
def mintPurposes (tb : PTransactionBody) : List ScriptPurpose :=
  (mintPolicies tb).map .Minting

/-- A concrete hash environment: blob `n` hashes to the byte string `[n]`. -/
def env0 : HashEnv :=
  { scriptHash := fun s => [s]
    datumHash := fun d => [d]
    redeemerHash := fun r => [r.data] }

/-- A spend redeemer declared for input position 0. -/
def spendRedeemer : PRedeemer := ⟨.spend, 0, 11, (0, 0)⟩

/-- A resolved output locked by the script credential `[7]`, carrying an
inline datum. -/
def scriptOutput : PTransactionOutput :=
  { address := ⟨.script [7], .none⟩
    amount := ⟨2, some []⟩
    datum := some 5
    datum_hash := none
    script := none }

/-- A transaction body with one input and nothing else of note. -/
def baseBody : PTransactionBody :=
  { inputs := [⟨[1], 0⟩]
    reference_inputs := none
    outputs := []
    fee := 1
    mint := none
    certificates := none
    withdraws := none
    validity_start := none
    ttl := none
    required_signers := none
    id := [9] }

/-- A witness set attaching the script blob `7` (hash `[7]`) and the spend
redeemer for position 0. -/
def baseWitness : PWitnessSet :=
  { plutus_v2_script := some [7]
    plutus_data := none
    redeemer := some [spendRedeemer] }

/-- One script-controlled input, matching redeemer, matching witness script,
inline datum: the well-behaved spending scenario. -/
def baseTx : PTransaction := ⟨baseBody, baseWitness⟩

/-- The resolved spending input of `baseTx`. -/
def baseUTxO : PUTxO := ⟨⟨[1], 0⟩, scriptOutput⟩

/-- A reference-input output carrying the reference script blob `7`
(hash `[7]`, exactly the spending credential of `scriptOutput`). -/
def refOutput : PTransactionOutput :=
  { address := ⟨.vkey [3], .none⟩
    amount := ⟨0, some []⟩
    datum := none
    datum_hash := none
    script := some 7 }

/-- `baseTx` with a declared reference input and an *empty* witness script
list: the only script whose hash matches the spending credential is the
reference script of the reference input. -/
def c1Tx : PTransaction :=
  ⟨{ baseBody with reference_inputs := some [⟨[2], 0⟩] },
    { baseWitness with plutus_v2_script := some [] }⟩

/-- The resolved reference input carrying the matching reference script. -/
def c1RefUTxO : PUTxO := ⟨⟨[2], 0⟩, refOutput⟩

/-- The spent output of the mutation scenario: as `scriptOutput` but itself
carrying a reference script blob `3`. -/
def c5Output : PTransactionOutput := { scriptOutput with script := some 3 }

/-- The resolved spending input of the mutation scenario. -/
def c5UTxO : PUTxO := ⟨⟨[1], 0⟩, c5Output⟩

/-- A mint redeemer declared for policy position 0. -/
def mintRedeemer : PRedeemer := ⟨.mint, 0, 12, (0, 0)⟩

/-- A transaction minting one token of the single policy `[5]`, with the
mint redeemer at index 0 and the witness-attached script blob `5`
(hash `[5]` = the policy id): the spec's minting scenario. -/
def c2Tx : PTransaction :=
  ⟨{ baseBody with inputs := [], mint := some [([5], [([2], 1)])] },
    { plutus_v2_script := some [5]
      plutus_data := none
      redeemer := some [mintRedeemer] }⟩

/-- `baseTx` with two spend redeemers both declared for position 0. -/
def c4Tx : PTransaction :=
  ⟨baseBody,
    { baseWitness with
        redeemer := some [⟨.spend, 0, 21, (0, 0)⟩, ⟨.spend, 0, 22, (0, 0)⟩] }⟩

/-! ### Helper lemmas -/

instance {ε α : Type} [DecidableEq ε] [DecidableEq α] :
    DecidableEq (Except ε α) := fun a b =>
  match a, b with
  | .error x, .error y =>
    if h : x = y then isTrue (by rw [h])
    else isFalse (fun hh => h (Except.error.inj hh))
  | .error _, .ok _ => isFalse (fun hh => Except.noConfusion hh)
  | .ok _, .error _ => isFalse (fun hh => Except.noConfusion hh)
  | .ok x, .ok y =>
    if h : x = y then isTrue (by rw [h])
    else isFalse (fun hh => h (Except.ok.inj hh))

theorem dictGet?_dictInsert_same {κ ν : Type} [BEq κ] [LawfulBEq κ]
    (l : List (κ × ν)) (k : κ) (v : ν) :
    dictGet? (dictInsert l k v) k = some v := by
  induction l with
  | nil => simp [dictInsert, dictGet?]
  | cons kv rest ih =>
    obtain ⟨k1, v1⟩ := kv
    cases h : k1 == k with
    | true => simp [dictInsert, dictGet?, h]
    | false =>
      simp only [dictInsert, h, Bool.false_eq_true, if_false, dictGet?]
      exact ih

theorem dictGet?_dictInsert_other {κ ν : Type} [BEq κ] [LawfulBEq κ]
    (l : List (κ × ν)) (k k' : κ) (v : ν) (hk : k' ≠ k) :
    dictGet? (dictInsert l k v) k' = dictGet? l k' := by
  have hkb : (k == k') = false := by
    rw [beq_eq_false_iff_ne]
    exact fun h => hk h.symm
  induction l with
  | nil => simp [dictInsert, dictGet?, hkb]
  | cons kv rest ih =>
    obtain ⟨k1, v1⟩ := kv
    cases h : k1 == k with
    | true =>
      have h1 : k1 = k := eq_of_beq h
      subst h1
      simp [dictInsert, dictGet?, hkb]
    | false =>
      simp only [dictInsert, h, Bool.false_eq_true, if_false, dictGet?]
      cases h' : k1 == k' <;> simp [ih]

theorem multiasset_to_value_some (m : MultiAsset) :
    multiasset_to_value (some m) = m := by
  simp [multiasset_to_value]

theorem find?_append_first {α : Type} (p : α → Bool) (pre post : List α)
    (a : α) (ha : p a = true) (hpre : ∀ x ∈ pre, p x = false) :
    (pre ++ a :: post).find? p = some a := by
  induction pre with
  | nil => simp [List.find?, ha]
  | cons b bs ih =>
    have hb : p b = false := hpre b (List.mem_cons_self b bs)
    simp only [List.cons_append, List.find?, hb]
    exact ih (fun x hx => hpre x (List.mem_cons_of_mem b hx))

theorem redeemerPred_iff (r : PRedeemer) (i : Nat) (t : RedeemerTag) :
    (r.index == i && r.tag == t) = true ↔ (r.index = i ∧ r.tag = t) := by
  simp [Bool.and_eq_true, beq_iff_eq]

theorem findSpendRedeemer_none (rs : List PRedeemer) (i : Nat)
    (hall : ∀ r ∈ rs, ¬(r.index = i ∧ r.tag = RedeemerTag.spend)) :
    findSpendRedeemer (some rs) i = .error (.missingRedeemer i) := by
  have hf : rs.find?
      (fun r => r.index == i && r.tag == RedeemerTag.spend) = none := by
    rw [List.find?_eq_none]
    intro r hr hp
    exact hall r hr ((redeemerPred_iff r i RedeemerTag.spend).mp hp)
  simp [findSpendRedeemer, hf]

theorem wdrlEntries_error (l : List (StakingPart × Int)) (e : Err)
    (h : wdrlEntries l = .error e) : e = .unsupportedKeyType := by
  induction l with
  | nil => simp [wdrlEntries] at h
  | cons kv rest ih =>
    simp only [wdrlEntries] at h
    cases hsk : to_staking_hash kv.1 with
    | none =>
      rw [hsk] at h
      simp only at h
      exact (Except.error.inj h).symm
    | some sc =>
      rw [hsk] at h
      simp only at h
      cases hr : wdrlEntries rest with
      | error e' =>
        rw [hr] at h
        simp only at h
        obtain rfl := Except.error.inj h
        exact ih hr
      | ok tl =>
        rw [hr] at h
        simp only at h
        exact absurd h (by simp)

theorem to_wdrl_error (w : Option (List (StakingPart × Int))) (e : Err)
    (h : to_wdrl w = .error e) : e = .unsupportedKeyType := by
  cases w with
  | none => simp [to_wdrl] at h
  | some l =>
    simp only [to_wdrl] at h
    cases hl : wdrlEntries l with
    | error e' =>
      rw [hl] at h
      simp only at h
      obtain rfl := Except.error.inj h
      exact wdrlEntries_error l _ hl
    | ok entries =>
      rw [hl] at h
      simp only at h
      exact absurd h (by simp)

theorem list_dcert_nil (l : List DCert) : l = [] := by
  cases l with
  | nil => rfl
  | cons a _ => exact nomatch a

theorem runSpendInputs_ok_purposes (env : HashEnv) (tx_info : TxInfo)
    (rds : Option (List PRedeemer)) (pdata : Option (List Datum))
    (refScripts : List Script) (us : List PUTxO) :
    ∀ (i : Nat) (w : Option (List Script)) (l : List ScriptInvocation)
      (w' : Option (List Script)),
      runSpendInputs env tx_info rds pdata refScripts i us w = (.ok l, w') →
      l.map (fun inv => inv.script_context.purpose) = spendPurposes us := by
  induction us with
  | nil =>
    intro i w l w' h
    simp only [runSpendInputs, Prod.mk.injEq] at h
    rw [← Except.ok.inj h.1]
    simp [spendPurposes]
  | cons u rest ih =>
    intro i w l w' h
    simp only [runSpendInputs] at h
    cases hpay : u.output.address.payment_part with
    | vkey hk =>
      rw [hpay] at h
      have hrec := ih (i + 1) w l w' h
      rw [hrec]
      simp [spendPurposes, List.filter, hpay]
    | script cred =>
      rw [hpay] at h
      simp only at h
      cases hr : findSpendRedeemer rds i with
      | error e =>
        rw [hr] at h
        simp only [Prod.mk.injEq] at h
        exact absurd h.1 (by simp)
      | ok r =>
        rw [hr] at h
        simp only at h
        cases hs : findSpendingScript env (mutateWitnessScripts w refScripts)
            cred with
        | error e =>
          rw [hs] at h
          simp only [Prod.mk.injEq] at h
          exact absurd h.1 (by simp)
        | ok s =>
          rw [hs] at h
          simp only at h
          cases hd : resolveDatum env pdata u.output with
          | error e =>
            rw [hd] at h
            simp only [Prod.mk.injEq] at h
            exact absurd h.1 (by simp)
          | ok d =>
            rw [hd] at h
            simp only [Prod.mk.injEq] at h
            obtain ⟨h1, h2⟩ := h
            cases hstep : (runSpendInputs env tx_info rds pdata refScripts
                (i + 1) rest (mutateWitnessScripts w refScripts)).1 with
            | error e => rw [hstep] at h1; exact absurd h1 (by simp [Except.map])
            | ok l0 =>
              rw [hstep] at h1
              simp only [Except.map] at h1
              rw [← Except.ok.inj h1]
              have hrec := ih (i + 1) (mutateWitnessScripts w refScripts) l0
                (runSpendInputs env tx_info rds pdata refScripts
                  (i + 1) rest (mutateWitnessScripts w refScripts)).2
                (by rw [← hstep])
              simp only [List.map]
              rw [hrec]
              simp [spendPurposes, List.filter, hpay]

theorem runMint_ok (env : HashEnv) (rds : Option (List PRedeemer))
    (i : Nat) (ps : List Bytes) (w : Option (List Script))
    (l : List ScriptInvocation) (h : runMint env rds i ps w = .ok l) :
    ps = [] ∧ l = [] := by
  cases ps with
  | nil =>
    simp only [runMint] at h
    exact ⟨rfl, (Except.ok.inj h).symm⟩
  | cons p rest =>
    simp only [runMint] at h
    cases hr : findMintRedeemer rds i with
    | error e => rw [hr] at h; exact absurd h (by simp)
    | ok r =>
      rw [hr] at h
      simp only at h
      cases hs : findMintingScript env w p with
      | error e => rw [hs] at h; exact absurd h (by simp)
      | ok s => rw [hs] at h; exact absurd h (by simp)

/-! ### The claims -/

/-- C1.  The spec claims the candidate script pool for a spending input is
the witness-attached scripts plus every reference script of any resolved or
reference input, and that the matching script is selected from that pool.
The code builds exactly that pool (`potential_scripts`) but then searches
`tx.transaction_witness_set.plutus_v2_script` instead, so with an empty
witness script list a matching reference script is never found: resolution
fails with `UnsupportedScript` although the pool contains the script. -/
theorem c1_reference_script_ignored :
    (c1Tx.transaction_witness_set.plutus_v2_script = some [] ∧
      c1RefUTxO.output.script = some 7 ∧
      env0.scriptHash 7 = [7] ∧
      scriptOutput.address.payment_part = .script [7]) ∧
    generate_script_contexts_resolved env0 c1Tx [baseUTxO] [c1RefUTxO] =
      .error .unsupportedScript := by
  decide

/-- C2.  The spec's minting scenario: one policy `P = [5]`, a mint redeemer
at index 0, a witness-attached script of hash `P`.  The claim says
resolution succeeds with one `Minting(P)` invocation; the code instead
crashes after resolving redeemer and script, because the appended
`ScriptInvocation(minting_script, minting_redeemer, ScriptContext(...))`
evaluates `minting_script.hash()` (an `AttributeError`: `PlutusV2Script` is
a plain `bytes` subclass) and passes only three of the dataclass's four
required arguments (a `TypeError`). -/
theorem c2_mint_invocation_crashes :
    (mintPolicies c2Tx.transaction_body = [[5]] ∧
      c2Tx.transaction_witness_set.redeemer = some [⟨.mint, 0, 12, (0, 0)⟩] ∧
      c2Tx.transaction_witness_set.plutus_v2_script = some [5] ∧
      env0.scriptHash 5 = [5]) ∧
    generate_script_contexts_resolved env0 c2Tx [] [] =
      .error .attributeError := by
  decide

/-- C3, counterexample.  Not every Value produced by the value converter
contains the native-currency entry: `multiasset_to_value` applied to a
*present* multi-asset map (as `to_tx_info` does for the mint field) returns
only that map's policies, with no `b""` key at all. -/
theorem c3_present_multiasset_lacks_native_entry :
    dictGet? (multiasset_to_value (some [([1], [([2], 5)])])) [] = none := by
  decide

/-- C3, amended.  An absent multi-asset map converts to exactly
`{b"": {b"": 0}}`, and a ledger amount (coin plus multi-asset) converts via
`value_to_value` to a Value whose native-currency entry equals the coin
amount while every other policy's entries are carried over unchanged; but
`multiasset_to_value` applied to a present multi-asset map adds no
native-currency entry (the produced Value has exactly the map's own
policies). -/
theorem c3_native_currency_amended (v : PValue) (p : Bytes) :
    multiasset_to_value none = [([], [([], 0)])] ∧
    dictGet? (value_to_value v) [] = some [([], v.coin)] ∧
    (p ≠ [] →
      dictGet? (value_to_value v) p =
        dictGet? (multiasset_to_value v.multi_asset) p) ∧
    (∀ m, multiasset_to_value (some m) = m) := by
  refine ⟨rfl, ?_, ?_, multiasset_to_value_some⟩
  · exact dictGet?_dictInsert_same (multiasset_to_value v.multi_asset) []
      [([], v.coin)]
  · intro hp
    exact dictGet?_dictInsert_other (multiasset_to_value v.multi_asset) []
      p [([], v.coin)] hp

/-- C3, amended, at a concrete input: coin 9 with one foreign policy. -/
theorem c3_native_currency_amended_witness :
    dictGet? (value_to_value ⟨9, some [([1], [([2], 5)])]⟩) [] =
      some [([], 9)] ∧
    dictGet? (value_to_value ⟨9, some [([1], [([2], 5)])]⟩) [1] =
      dictGet? (multiasset_to_value (some [([1], [([2], 5)])])) [1] :=
  ⟨(c3_native_currency_amended ⟨9, some [([1], [([2], 5)])]⟩ [1]).2.1,
    (c3_native_currency_amended ⟨9, some [([1], [([2], 5)])]⟩ [1]).2.2.1
      (by decide)⟩

/-- C5.  The claim says resolution never mutates the transaction or its
witness set.  In the code, `potential_scripts = ws.plutus_v2_script or []`
aliases the witness list when it is non-empty, and the subsequent appends of
every input-carried reference script mutate
`tx.transaction_witness_set.plutus_v2_script` in place: here a successful
resolution grows the witness script list from `[7]` to `[7, 3]`. -/
theorem c5_resolution_mutates_witness_set :
    (generate_script_contexts_resolvedSt env0 baseTx [c5UTxO] []).1.isOk =
      true ∧
    baseTx.transaction_witness_set.plutus_v2_script = some [7] ∧
    (generate_script_contexts_resolvedSt env0 baseTx [c5UTxO] []).2 =
      some [7, 3] := by
  decide

/-- C4, counterexample.  A transaction with TWO redeemers that both declare
index 0 and tag spend for the single script-controlled input does not fail
with `MissingRedeemer` as the claim requires of an ambiguous match: the
first matching redeemer is silently used and resolution succeeds. -/
theorem c4_duplicate_redeemers_not_rejected :
    c4Tx.transaction_witness_set.redeemer =
      some [⟨.spend, 0, 21, (0, 0)⟩, ⟨.spend, 0, 22, (0, 0)⟩] ∧
    Except.map (List.map fun inv => inv.redeemer)
      (generate_script_contexts_resolved env0 c4Tx [baseUTxO] []) =
      .ok [⟨.spend, 0, 21, (0, 0)⟩] := by
  decide

/-- C4, amended.  For a script-controlled resolved input at position `i`,
the resolver selects the FIRST redeemer in witness-list order whose declared
index equals `i` and whose tag is spend; when no redeemer matches, the
spending loop aborts with `MissingRedeemer` identifying position `i` (so no
invocation list is produced); several matching redeemers are not rejected —
the earliest one wins. -/
theorem c4_first_spend_redeemer_selected (rs : List PRedeemer) (i : Nat) :
    (findSpendRedeemer (some rs) i = .error (.missingRedeemer i) ↔
      ∀ r ∈ rs, ¬(r.index = i ∧ r.tag = RedeemerTag.spend)) ∧
    (∀ pre r post, rs = pre ++ r :: post → r.index = i →
      r.tag = RedeemerTag.spend →
      (∀ r' ∈ pre, ¬(r'.index = i ∧ r'.tag = RedeemerTag.spend)) →
      findSpendRedeemer (some rs) i = .ok r) ∧
    (∀ env tx_info pdata refScripts u rest w cred,
      u.output.address.payment_part = .script cred →
      (∀ r ∈ rs, ¬(r.index = i ∧ r.tag = RedeemerTag.spend)) →
      runSpendInputs env tx_info (some rs) pdata refScripts i (u :: rest) w =
        (.error (.missingRedeemer i), w)) := by
  refine ⟨⟨?_, findSpendRedeemer_none rs i⟩, ?_, ?_⟩
  · intro he r hr hmatch
    cases hf : rs.find?
        (fun r => r.index == i && r.tag == RedeemerTag.spend) with
    | none =>
      rw [List.find?_eq_none] at hf
      exact hf r hr ((redeemerPred_iff r i RedeemerTag.spend).mpr hmatch)
    | some r0 =>
      rw [findSpendRedeemer, hf] at he
      exact absurd he (by simp)
  · intro pre r post hsplit hidx htag hpre
    have hf : rs.find?
        (fun r => r.index == i && r.tag == RedeemerTag.spend) = some r := by
      rw [hsplit]
      refine find?_append_first _ pre post r
        ((redeemerPred_iff r i RedeemerTag.spend).mpr ⟨hidx, htag⟩) ?_
      intro x hx
      cases hb : (x.index == i && x.tag == RedeemerTag.spend) with
      | false => rfl
      | true =>
        exact absurd ((redeemerPred_iff x i RedeemerTag.spend).mp hb)
          (hpre x hx)
    rw [findSpendRedeemer, hf]
  · intro env tx_info pdata refScripts u rest w cred hpay hall
    have herr := findSpendRedeemer_none rs i hall
    simp only [runSpendInputs]
    rw [hpay]
    simp only
    rw [herr]

/-- C6.  For a script-controlled spending input's resolved output: an
inline datum is used directly; otherwise a present datum hash is looked up
among the transaction's attached datums (witness `plutus_data`), the first
datum whose content hash equals it being returned and its absence being a
fatal `MissingDatum`; an output with neither inline datum nor datum hash
also fails with `MissingDatum`. -/
theorem c6_datum_resolution (env : HashEnv) (pdata : Option (List Datum))
    (o : PTransactionOutput) :
    (∀ d, o.datum = some d → resolveDatum env pdata o = .ok d) ∧
    (∀ hsh, o.datum = none → o.datum_hash = some hsh →
      (((∀ d ∈ pdata.getD [], env.datumHash d ≠ hsh) →
          resolveDatum env pdata o = .error .missingDatum) ∧
        ((∃ d ∈ pdata.getD [], env.datumHash d = hsh) →
          ∃ d, resolveDatum env pdata o = .ok d ∧ d ∈ pdata.getD [] ∧
            env.datumHash d = hsh))) ∧
    (o.datum = none → o.datum_hash = none →
      resolveDatum env pdata o = .error .missingDatum) := by
  refine ⟨?_, ?_, ?_⟩
  · intro d hd
    simp [resolveDatum, hd]
  · intro hsh hd hdh
    constructor
    · intro hall
      have hf : (pdata.getD []).find? (fun d => env.datumHash d == hsh) =
          none := by
        rw [List.find?_eq_none]
        intro d hdm hp
        exact hall d hdm (by simpa using hp)
      simp [resolveDatum, hd, hdh, hf]
    · rintro ⟨d0, hd0m, hd0h⟩
      cases hf : (pdata.getD []).find? (fun d => env.datumHash d == hsh) with
      | none =>
        rw [List.find?_eq_none] at hf
        exact absurd (by simpa using hd0h) (hf d0 hd0m)
      | some d1 =>
        refine ⟨d1, by simp [resolveDatum, hd, hdh, hf], ?_, ?_⟩
        · exact List.mem_of_find?_eq_some hf
        · simpa using List.find?_some hf
  · intro hd hdh
    simp [resolveDatum, hd, hdh]

/-- C7.  Building the `TxInfo` fails with `CertificatesUnsupported` exactly
when the transaction body carries at least one certificate; a successfully
built `TxInfo` has an empty certificates field. -/
theorem c7_certificates_fail_fast (env : HashEnv) (tx : PTransaction)
    (ri rri : List PTransactionOutput) :
    (to_tx_info env tx ri rri = .error .certificatesUnsupported ↔
      tx.transaction_body.certificates.getD [] ≠ []) ∧
    (∀ info, to_tx_info env tx ri rri = .ok info → info.dcert = []) := by
  constructor
  · have hnocert : ∀ h : tx.transaction_body.certificates.getD [] = [],
        to_tx_info env tx ri rri ≠ .error .certificatesUnsupported := by
      intro hc
      simp only [to_tx_info]
      cases hcs : tx.transaction_body.certificates with
      | none =>
        simp only
        cases hw : to_wdrl tx.transaction_body.withdraws with
        | error e =>
          simp only
          intro hcontra
          have := to_wdrl_error _ _ hw
          rw [this] at hcontra
          exact absurd (Except.error.inj hcontra) (by simp)
        | ok wl =>
          simp only
          cases hrd : tx.transaction_witness_set.redeemer with
          | none => simp
          | some rrs => simp
      | some cs =>
        rw [hcs] at hc
        simp only [Option.getD] at hc
        rw [hc]
        simp only [List.isEmpty_nil, if_true]
        cases hw : to_wdrl tx.transaction_body.withdraws with
        | error e =>
          simp only
          intro hcontra
          have := to_wdrl_error _ _ hw
          rw [this] at hcontra
          exact absurd (Except.error.inj hcontra) (by simp)
        | ok wl =>
          simp only
          cases hrd : tx.transaction_witness_set.redeemer with
          | none => simp
          | some rrs => simp
    constructor
    · intro he
      by_contra hc
      exact hnocert hc he
    · intro hne
      cases hcs : tx.transaction_body.certificates with
      | none => rw [hcs] at hne; simp at hne
      | some cs =>
        cases cs with
        | nil => rw [hcs] at hne; simp at hne
        | cons c rest =>
          simp only [to_tx_info, hcs]
          simp [to_dcerts, to_dcert]
  · intro info _
    exact list_dcert_nil info.dcert

/-- C8.  The time-range conversion: absent validity start ⇒ lower bound
`NegInfPOSIXTime`, exclusive (`FalseData`); present start `s` ⇒ lower bound
`FinitePOSIXTime s`, inclusive (`TrueData`); absent ttl ⇒ upper bound
`PosInfPOSIXTime`, exclusive; present ttl `t` ⇒ upper bound
`FinitePOSIXTime t`, inclusive. -/
theorem c8_valid_range_bounds (vs ttl : Option Int) :
    (vs = none →
      (to_valid_range vs ttl).lower_bound =
        LowerBoundPOSIXTime.mk .NegInfPOSIXTime .FalseData) ∧
    (∀ s, vs = some s →
      (to_valid_range vs ttl).lower_bound =
        LowerBoundPOSIXTime.mk (.FinitePOSIXTime s) .TrueData) ∧
    (ttl = none →
      (to_valid_range vs ttl).upper_bound =
        UpperBoundPOSIXTime.mk .PosInfPOSIXTime .FalseData) ∧
    (∀ t, ttl = some t →
      (to_valid_range vs ttl).upper_bound =
        UpperBoundPOSIXTime.mk (.FinitePOSIXTime t) .TrueData) := by
  refine ⟨?_, ?_, ?_, ?_⟩
  · rintro rfl; cases ttl <;> rfl
  · rintro s rfl; cases ttl <;> rfl
  · rintro rfl; cases vs <;> rfl
  · rintro t rfl; cases vs <;> rfl

/-- C9.  The output-datum variant of a converted `TxOut`: `SomeOutputDatum`
(inline) whenever the source datum field is populated — even when the hash
field is populated too —, `SomeOutputDatumHash` when only the hash field is
populated, `NoOutputDatum` when neither is. -/
theorem c9_output_datum_variant (env : HashEnv) (o : PTransactionOutput) :
    (∀ d, o.datum = some d →
      (to_tx_out env o).datum = .SomeOutputDatum d) ∧
    (∀ hsh, o.datum = none → o.datum_hash = some hsh →
      (to_tx_out env o).datum = .SomeOutputDatumHash hsh) ∧
    (o.datum = none → o.datum_hash = none →
      (to_tx_out env o).datum = .NoOutputDatum) := by
  refine ⟨?_, ?_, ?_⟩
  · intro d hd
    simp [to_tx_out, hd]
  · intro hsh hd hdh
    simp [to_tx_out, hd, hdh]
  · intro hd hdh
    simp [to_tx_out, hd, hdh]

theorem generate_ok_decompose (env : HashEnv) (tx : PTransaction)
    (ri rri : List PUTxO) (invs : List ScriptInvocation)
    (h : generate_script_contexts_resolved env tx ri rri = .ok invs) :
    ∃ tx_info spendInvs mintInvs,
      to_tx_info env tx (ri.map (·.output)) (rri.map (·.output)) =
        .ok tx_info ∧
      (runSpendInputs env tx_info tx.transaction_witness_set.redeemer
        tx.transaction_witness_set.plutus_data
        ((rri ++ ri).filterMap (·.output.script)) 0 ri
        tx.transaction_witness_set.plutus_v2_script).1 = .ok spendInvs ∧
      runMint env tx.transaction_witness_set.redeemer 0
        (mintPolicies tx.transaction_body)
        (runSpendInputs env tx_info tx.transaction_witness_set.redeemer
          tx.transaction_witness_set.plutus_data
          ((rri ++ ri).filterMap (·.output.script)) 0 ri
          tx.transaction_witness_set.plutus_v2_script).2 = .ok mintInvs ∧
      invs = spendInvs ++ mintInvs := by
  simp only [generate_script_contexts_resolved,
    generate_script_contexts_resolvedSt] at h
  split at h
  · simp at h
  · split at h
    · simp at h
    · split at h
      · simp at h
      · simp only at h
        refine ⟨_, _, _, by assumption, by assumption, by assumption, ?_⟩
        exact (Except.ok.inj h).symm

/-- C10.  Whenever resolution returns an invocation list, the purposes of
that list are exactly: one `Spending` purpose per script-controlled resolved
input, in the order the inputs appear (inputs with a non-script payment
credential are skipped), followed by the `Minting` purposes of the mint
map's policies in encountered order. -/
theorem c10_invocation_order (env : HashEnv) (tx : PTransaction)
    (ri rri : List PUTxO)
    (hok : (generate_script_contexts_resolved env tx ri rri).isOk = true) :
    Except.map (List.map fun inv => inv.script_context.purpose)
      (generate_script_contexts_resolved env tx ri rri) =
      .ok (spendPurposes ri ++ mintPurposes tx.transaction_body) := by
  cases hgen : generate_script_contexts_resolved env tx ri rri with
  | error e =>
    rw [hgen] at hok
    simp [Except.isOk, Except.toBool] at hok
  | ok invs =>
    obtain ⟨tx_info, spendInvs, mintInvs, hti, hspend, hmint, hrw⟩ :=
      generate_ok_decompose env tx ri rri invs hgen
    subst hrw
    simp only [Except.map]
    obtain ⟨hps, hmnil⟩ := runMint_ok _ _ _ _ _ _ hmint
    have hpair : runSpendInputs env tx_info
        tx.transaction_witness_set.redeemer
        tx.transaction_witness_set.plutus_data
        ((rri ++ ri).filterMap (·.output.script)) 0 ri
        tx.transaction_witness_set.plutus_v2_script =
        (.ok spendInvs, (runSpendInputs env tx_info
          tx.transaction_witness_set.redeemer
          tx.transaction_witness_set.plutus_data
          ((rri ++ ri).filterMap (·.output.script)) 0 ri
          tx.transaction_witness_set.plutus_v2_script).2) := by
      rw [← hspend]
    have hsp := runSpendInputs_ok_purposes env tx_info
      tx.transaction_witness_set.redeemer
      tx.transaction_witness_set.plutus_data
      ((rri ++ ri).filterMap (·.output.script)) ri 0
      tx.transaction_witness_set.plutus_v2_script spendInvs _ hpair
    rw [hmnil, List.append_nil, hsp]
    simp [mintPurposes, hps]

/-- C10, at the concrete well-behaved spending transaction. -/
theorem c10_invocation_order_witness :
    Except.map (List.map fun inv => inv.script_context.purpose)
      (generate_script_contexts_resolved env0 baseTx [baseUTxO] []) =
      .ok (spendPurposes [baseUTxO] ++ mintPurposes baseTx.transaction_body) :=
  c10_invocation_order env0 baseTx [baseUTxO] [] (by decide)

end TxTools
